import Mathlib

/-!
Shallow embedding of the okx_snipe_bot repository (files `snipe_bot.py` and
`main.py`).

Python floats are modelled as rationals (`ℚ`); nullable Python values as
`Option`; a call into the exchange client (ccxt) is modelled by an oracle
value describing its outcome.  An outcome is either a normal return, an
`Exception` (caught by the `except Exception` handlers of the source), or a
`KeyboardInterrupt`, which in Python derives from `BaseException` and is NOT
caught by `except Exception`.

The class methods of `SnipeBot` (`calculate_buy_amount`, `get_current_price`,
`check_balance`, `place_order`) live in the `SnipeBot` namespace.  The
module-level functions `run` and `place_order` of `snipe_bot.py` are modelled
at the top level of the `OkxSnipe` namespace: the polling loop of `run` is
given as a per-iteration step function `loopIter` plus an event-list driver
`runLoop`, and its pre-loop validation as `runValidate`.
-/

namespace OkxSnipe

/-- An order object returned by the exchange; its contents are irrelevant to
the bot, so it is abstracted to a tag. -/
abbrev OrderData := Nat

/-- Outcome of a single call into the exchange client: a normal value, a
raised `Exception`, or a raised `KeyboardInterrupt` (not an `Exception`
subclass in Python). -/
inductive PyOutcome (α : Type) where
  | ok (v : α)
  | exc
  | interrupt
deriving DecidableEq

/-- Observable result of one of the bot's methods, all of which wrap their
body in `try ... except Exception`: a normal return value, or a propagating
`KeyboardInterrupt`. -/
inductive PyResult (α : Type) where
  | ok (v : α)
  | interrupted
deriving DecidableEq

/-- The per-symbol market data the bot reads from `exchange.markets`:
`limits.amount.min` and `limits.cost.min`, each possibly absent (the source
substitutes a default via chained `dict.get`). -/
structure Market where
  minAmountLimit : Option ℚ
  minCostLimit : Option ℚ
deriving DecidableEq

/-- The mutable fields of a `SnipeBot` instance (set in `__init__` and by
`main.py`), together with the loaded market table of its exchange. -/
structure BotState where
  target_symbol : Option String
  quote_amount : Option ℚ
  max_price : Option ℚ
  order_type : String
  limit_price : Option ℚ
  markets : List (String × Market)
deriving DecidableEq

/-- Python truthiness of an optional string (`None` and `""` are falsy). -/
def sTruthy : Option String → Bool
  | none => false
  | some s => !s.isEmpty

/-- Python truthiness of an optional number (`None` and `0` are falsy). -/
def qTruthy : Option ℚ → Bool
  | none => false
  | some x => x != 0

/-- Model of the market lookup on the exchange object: look the target symbol up in
the loaded market table; `none` models the lookup raising (unset or unknown
symbol). -/
def lookupMarket (st : BotState) : Option Market :=
  st.target_symbol.bind fun s => (st.markets.find? (fun kv => kv.1 == s)).map (fun kv => kv.2)

/-- Python float formatting with four decimal places (format spec .4f)
followed by conversion back to float: round to four decimal places. -/
def fmt4 (x : ℚ) : ℚ :=
  ((⌊x * 10000 + 1 / 2⌋ : ℤ) : ℚ) / 10000

/-- Split a character list at every occurrence of `sep`, Python
`str.split` style (adjacent separators yield empty pieces). -/
def splitChars (sep : Char) : List Char → List (List Char)
  | [] => [[]]
  | c :: rest =>
    let r := splitChars sep rest
    if c = sep then [] :: r
    else
      match r with
      | [] => [[c]]
      | h :: t => (c :: h) :: t

/-- Python `s.split(sep)` for a single-character separator. -/
def pySplit (s : String) (sep : Char) : List String :=
  (splitChars sep s.data).map (fun l => { data := l })

/-- Model of splitting the target symbol at the slash and taking the second
piece: the quote currency of the pair;
`none` models the `AttributeError`/`IndexError` paths. -/
def quoteCurrencyOf (st : BotState) : Option String :=
  st.target_symbol.bind fun s => (pySplit s '/').get? 1

namespace SnipeBot

/-- Method `calculate_buy_amount` of the class (snipe_bot.py lines 74-100):
divide the
budget by the price, raise the result to the market's minimum amount
(default `0.01`), format to 4 decimals.  `none` models the `except` branch:
`TypeError` (unset budget or unset price), `ZeroDivisionError` (price `0`),
or a failing market lookup. -/
def calculate_buy_amount (st : BotState) (price : Option ℚ) : Option ℚ :=
  match st.quote_amount with
  | none => none
  | some q =>
    match price with
    | none => none
    | some p =>
      if p = 0 then none
      else
        let amount := q / p
        match lookupMarket st with
        | none => none
        | some market =>
          let min_amount := market.minAmountLimit.getD (1 / 100)
          let amount2 := max amount min_amount
          some (fmt4 amount2)

/-- Method `get_current_price` of the class (lines 102-109): return the last
field of the fetched ticker;
an `Exception` from `fetch_ticker` is caught and yields `None`; a
`KeyboardInterrupt` propagates. -/
def get_current_price (st : BotState) (tick : PyOutcome (Option ℚ)) :
    PyResult (Option ℚ) :=
  match tick with
  | .ok last => .ok last
  | .exc => .ok none
  | .interrupt => .interrupted

/-- Method `check_balance` of the class (lines 111-122): fetch the balance
table, read
the free field of its quote-currency entry, compare with `quote_amount`.  Every
`Exception` path (fetch failure, missing key, unset fields) yields `False`;
a `KeyboardInterrupt` propagates. -/
def check_balance (st : BotState) (bal : PyOutcome (String → Option ℚ)) :
    PyResult Bool :=
  match bal with
  | .interrupt => .interrupted
  | .exc => .ok false
  | .ok free =>
    match quoteCurrencyOf st with
    | none => .ok false
    | some qc =>
      match free qc with
      | none => .ok false
      | some available =>
        match st.quote_amount with
        | none => .ok false
        | some q => .ok (decide (available ≥ q))

end SnipeBot

/-- The exchange responses available to one `place_order` call, one per
primitive it may invoke. -/
structure OrderOracle where
  fetchBalance : PyOutcome (String → Option ℚ)
  fetchTicker : PyOutcome (Option ℚ)
  createMarketOrder : PyOutcome OrderData
  createLimitOrder : PyOutcome OrderData

/-- An order-creation request issued to the exchange
(`create_market_buy_order` / `create_limit_buy_order`). -/
inductive OrderCall where
  | market (symbol : Option String) (amount : ℚ)
  | limit (symbol : Option String) (amount : ℚ) (price : Option ℚ)
deriving DecidableEq

namespace SnipeBot

/-- Method `place_order` of the class (lines 124-202): balance check, then
the market or
limit branch; returns the created order, or `None` on any caught failure,
paired with the list of order-creation calls actually issued. -/
def place_order (st : BotState) (o : OrderOracle) :
    PyResult (Option OrderData) × List OrderCall :=
  match check_balance st o.fetchBalance with
  | .interrupted => (.interrupted, [])
  | .ok false => (.ok none, [])
  | .ok true =>
    if st.order_type == "market" then
      match get_current_price st o.fetchTicker with
      | .interrupted => (.interrupted, [])
      | .ok none => (.ok none, [])
      | .ok (some current_price) =>
        match calculate_buy_amount st (some current_price) with
        | none => (.ok none, [])
        | some amount =>
          match lookupMarket st with
          | none => (.ok none, [])
          | some market =>
            let min_amount := market.minAmountLimit.getD (1 / 10000)
            if amount < min_amount then (.ok none, [])
            else
              match o.createMarketOrder with
              | .ok ord => (.ok (some ord), [OrderCall.market st.target_symbol amount])
              | .exc => (.ok none, [OrderCall.market st.target_symbol amount])
              | .interrupt => (.interrupted, [OrderCall.market st.target_symbol amount])
    else
      match calculate_buy_amount st st.limit_price with
      | none => (.ok none, [])
      | some amount =>
        match lookupMarket st with
        | none => (.ok none, [])
        | some market =>
          let min_amount := market.minAmountLimit.getD (1 / 10000)
          if amount < min_amount then (.ok none, [])
          else
            match o.createLimitOrder with
            | .ok ord => (.ok (some ord), [OrderCall.limit st.target_symbol amount st.limit_price])
            | .exc => (.ok none, [OrderCall.limit st.target_symbol amount st.limit_price])
            | .interrupt => (.interrupted, [OrderCall.limit st.target_symbol amount st.limit_price])

end SnipeBot

/-- The module-level `place_order` of snipe_bot.py (lines 303-382), translated
from its own text; it is a verbatim duplicate of the class method. -/
def place_order (st : BotState) (o : OrderOracle) :
    PyResult (Option OrderData) × List OrderCall :=
  match SnipeBot.check_balance st o.fetchBalance with
  | .interrupted => (.interrupted, [])
  | .ok false => (.ok none, [])
  | .ok true =>
    if st.order_type == "market" then
      match SnipeBot.get_current_price st o.fetchTicker with
      | .interrupted => (.interrupted, [])
      | .ok none => (.ok none, [])
      | .ok (some current_price) =>
        match SnipeBot.calculate_buy_amount st (some current_price) with
        | none => (.ok none, [])
        | some amount =>
          match lookupMarket st with
          | none => (.ok none, [])
          | some market =>
            let min_amount := market.minAmountLimit.getD (1 / 10000)
            if amount < min_amount then (.ok none, [])
            else
              match o.createMarketOrder with
              | .ok ord => (.ok (some ord), [OrderCall.market st.target_symbol amount])
              | .exc => (.ok none, [OrderCall.market st.target_symbol amount])
              | .interrupt => (.interrupted, [OrderCall.market st.target_symbol amount])
    else
      match SnipeBot.calculate_buy_amount st st.limit_price with
      | none => (.ok none, [])
      | some amount =>
        match lookupMarket st with
        | none => (.ok none, [])
        | some market =>
          let min_amount := market.minAmountLimit.getD (1 / 10000)
          if amount < min_amount then (.ok none, [])
          else
            match o.createLimitOrder with
            | .ok ord => (.ok (some ord), [OrderCall.limit st.target_symbol amount st.limit_price])
            | .exc => (.ok none, [OrderCall.limit st.target_symbol amount st.limit_price])
            | .interrupt => (.interrupted, [OrderCall.limit st.target_symbol amount st.limit_price])

/-- Why `run` returned before its polling loop, or the state (with possibly
rewritten `max_price`) with which it enters the loop. -/
inductive RunExit where
  | missingParams
  | missingLimitPrice
  | missingMaxPrice
  | symbolNotFound
  | belowMinCost
  | proceed (st : BotState)
deriving DecidableEq

/-- Steps 3-5 of `run` (lines 228-241): symbol membership in
`exchange.markets`, market lookup, and the minimum-cost check
`if min_cost and self.quote_amount < min_cost`. -/
def runValidateStage2 (st : BotState) : RunExit :=
  match lookupMarket st with
  | none => .symbolNotFound
  | some market =>
    let min_cost := market.minCostLimit.getD 0
    if min_cost ≠ 0 ∧ st.quote_amount.getD 0 < min_cost then .belowMinCost
    else .proceed st

/-- Step 2 of `run` (lines 211-226): parameter validation, including the
automatic `max_price := limit_price * 1.01` for limit orders. -/
def runValidate (st : BotState) : RunExit :=
  if ¬(sTruthy st.target_symbol ∧ qTruthy st.quote_amount) then .missingParams
  else if st.order_type = "limit" ∧ ¬qTruthy st.limit_price then .missingLimitPrice
  else if ¬qTruthy st.max_price then
    (if st.order_type = "limit" then
      runValidateStage2 { st with max_price := st.limit_price.map (fun pr => pr * (101 / 100)) }
    else .missingMaxPrice)
  else runValidateStage2 st

/-- Holds (`true`) iff `run` returns without entering the polling loop. -/
def exitsEarly : RunExit → Bool
  | .proceed _ => false
  | _ => true

/-- How one iteration of the polling loop terminates the loop. -/
inductive ExitKind where
  | placed (o : OrderData)
  | fatal
  | interrupted
deriving DecidableEq

/-- The environment of one iteration of the polling loop: a normal pass with
its exchange responses, an `Exception` raised in the body outside the bot's
own methods (e.g. from logging), or a `KeyboardInterrupt` delivered in the
body (e.g. during `time.sleep`). -/
inductive LoopEvent where
  | step (tick : PyOutcome (Option ℚ)) (ord : OrderOracle)
  | bodyExc
  | bodyInterrupt

/-- Result of one iteration of the polling loop: whether and how the loop
exits, the new `retry_count`, whether `place_order` was called, and the
order-creation calls issued. -/
structure IterOut where
  exit : Option ExitKind
  retry : Nat
  attempted : Bool
  calls : List OrderCall
deriving DecidableEq

/-- One iteration of step 7 of `run` (lines 259-297): fetch the price
(`retry_count` bookkeeping, abort after `max_retries = 3` consecutive
failures), compare with `max_price`, call `self.place_order` when the
threshold is met, exit on success; `except KeyboardInterrupt` breaks,
`except Exception` continues.  A `None` `max_price` raises a `TypeError` at
the comparison, caught by `except Exception` (so `retry_count` is not
reset). -/
def loopIter (st : BotState) (retry : Nat) (ev : LoopEvent) : IterOut :=
  match ev with
  | .bodyInterrupt => ⟨some .interrupted, retry, false, []⟩
  | .bodyExc => ⟨none, retry, false, []⟩
  | .step tick ord =>
    match SnipeBot.get_current_price st tick with
    | .interrupted => ⟨some .interrupted, retry, false, []⟩
    | .ok none =>
      if 3 ≤ retry + 1 then ⟨some .fatal, retry + 1, false, []⟩
      else ⟨none, retry + 1, false, []⟩
    | .ok (some current_price) =>
      match st.max_price with
      | none => ⟨none, retry, false, []⟩
      | some m =>
        if current_price ≤ m then
          match SnipeBot.place_order st ord with
          | (.interrupted, calls) => ⟨some .interrupted, retry, true, calls⟩
          | (.ok (some o), calls) => ⟨some (.placed o), retry, true, calls⟩
          | (.ok none, calls) => ⟨none, 0, true, calls⟩
        else ⟨none, 0, false, []⟩

/-- Outcome of running the polling loop against a finite list of iteration
environments: one of the three exits, or still running when the list is
exhausted (carrying the current `retry_count`). -/
inductive LoopOutcome where
  | orderPlaced (o : OrderData)
  | fatalFetch
  | interrupted
  | running (retry : Nat)
deriving DecidableEq

/-- Drive the polling loop of `run` over a list of iteration environments. -/
def runLoop (st : BotState) : Nat → List LoopEvent → LoopOutcome
  | retry, [] => .running retry
  | retry, ev :: evs =>
    match loopIter st retry ev with
    | ⟨some (.placed o), _, _, _⟩ => .orderPlaced o
    | ⟨some .fatal, _, _, _⟩ => .fatalFetch
    | ⟨some .interrupted, _, _, _⟩ => .interrupted
    | ⟨none, retry2, _, _⟩ => runLoop st retry2 evs

/-- The attribute names bound in the class body of `SnipeBot`
(snipe_bot.py: the methods defined at class indentation, lines 9-202). -/
def snipeBotClassAttrs : List String :=
  ["__init__", "_initialize_exchange", "_setup_logger", "calculate_buy_amount",
   "get_current_price", "check_balance", "place_order"]

/-- The instance attribute names assigned on a `SnipeBot` object
(in `__init__`). -/
def snipeBotInstanceAttrs : List String :=
  ["logger", "exchange", "target_symbol", "quote_amount", "max_price",
   "order_type", "limit_price"]

/-- The names defined at module level (column 0) in snipe_bot.py: the class,
then `run` (line 203) and a second `place_order` (line 303), both dedented
out of the class body. -/
def snipeBotModuleLevelDefs : List String :=
  ["SnipeBot", "run", "place_order"]

/-- Python attribute lookup on a `SnipeBot` instance: instance dict, then
class dict; module-level names are not consulted.  `false` models an
`AttributeError`. -/
def getattrFinds (name : String) : Bool :=
  snipeBotInstanceAttrs.contains name || snipeBotClassAttrs.contains name

/-- What `main.py` observably does: either `bot.run()` starts the polling
loop, or an exception reaches the broad `except Exception` handler. -/
inductive MainOutcome where
  | loopRan
  | exceptionCaught
deriving DecidableEq

/-- Model of main.py lines 15-40: construct the bot, set the parameters, call
`bot.run()` inside `try ... except Exception`.  The call runs the loop only
if the attribute lookup `bot.run` succeeds; an `AttributeError` is an
`Exception` and lands in the handler. -/
def mainModel : MainOutcome :=
  if getattrFinds "run" then .loopRan else .exceptionCaught

/-! Concrete sample data, used by the witness theorems.  The numbers mirror
the market-order configuration of `main.py` (`ETH/USDT`, budget 100 USDT,
price ceiling 3000). -/

/-- Sample market data for `ETH/USDT`. -/
def demoMarket : Market := { minAmountLimit := some (1 / 10000), minCostLimit := some 1 }

/-- Sample bot state: the market-order configuration of `main.py`. -/
def demoState : BotState :=
  { target_symbol := some "ETH/USDT"
    quote_amount := some 100
    max_price := some 3000
    order_type := "market"
    limit_price := none
    markets := [("ETH/USDT", demoMarket)] }

/-- Sample exchange responses: ample balance, last price 2900, order
creation succeeds. -/
def demoOracle : OrderOracle :=
  { fetchBalance := .ok (fun c => if c == "USDT" then some 1000 else none)
    fetchTicker := .ok (some 2900)
    createMarketOrder := .ok 7
    createLimitOrder := .ok 8 }

/-- Sample exchange responses with an insufficient free USDT balance. -/
def poorOracle : OrderOracle :=
  { demoOracle with fetchBalance := .ok (fun c => if c == "USDT" then some 1 else none) }

/-! Claim theorems. -/

/-- C1: `run` and the second `place_order` are module-level definitions of
snipe_bot.py, not attributes of the `SnipeBot` class, so the lookup
`bot.run` in `main.py` fails with an `AttributeError`, the broad handler of
`main.py` catches it, and the polling loop never runs. -/
theorem run_not_a_method_main_catches :
    getattrFinds "run" = false ∧
    "run" ∈ snipeBotModuleLevelDefs ∧
    "place_order" ∈ snipeBotModuleLevelDefs ∧
    mainModel = MainOutcome.exceptionCaught := by
  refine ⟨rfl, ?_, ?_, rfl⟩ <;> simp [snipeBotModuleLevelDefs]

/-- C10: the class method `SnipeBot.place_order` and the module-level
`place_order` are behaviourally equivalent: on every bot state and every
assignment of exchange responses they return the same result and issue the
same order-creation calls. -/
theorem place_order_module_equiv :
    ∀ (st : BotState) (o : OrderOracle), place_order st o = SnipeBot.place_order st o :=
  fun _ _ => rfl

/-- C6: when `check_balance` reports an insufficient free balance,
`place_order` returns `None` and issues no order-creation call. -/
theorem place_order_insufficient_balance (st : BotState) (o : OrderOracle)
    (h : SnipeBot.check_balance st o.fetchBalance = .ok false) :
    SnipeBot.place_order st o = (.ok none, []) := by
  unfold SnipeBot.place_order
  rw [h]

/-- Witness for C6 at the sample state with a 1-USDT balance against a
100-USDT budget. -/
theorem place_order_insufficient_balance_witness :
    SnipeBot.place_order demoState poorOracle = (.ok none, []) :=
  place_order_insufficient_balance demoState poorOracle rfl

/-- C9: with a set budget and a positive price, `calculate_buy_amount`
returns the quotient of budget by price, raised to the market's minimum
amount (default `0.01`), rounded to four decimal places; at price `0` the
`ZeroDivisionError` is caught and `None` is returned. -/
theorem calculate_buy_amount_formula (st : BotState) (q p : ℚ) (market : Market)
    (hq : st.quote_amount = some q) (hp : 0 < p)
    (hm : lookupMarket st = some market) :
    SnipeBot.calculate_buy_amount st (some p)
      = some (fmt4 (max (q / p) (market.minAmountLimit.getD (1 / 100)))) ∧
    SnipeBot.calculate_buy_amount st (some 0) = none := by
  constructor
  · simp only [SnipeBot.calculate_buy_amount, hq, hm]
    rw [if_neg (ne_of_gt hp)]
  · simp [SnipeBot.calculate_buy_amount, hq]

/-- Witness for C9 at the sample configuration (budget 100, price 2900). -/
theorem calculate_buy_amount_formula_witness :
    SnipeBot.calculate_buy_amount demoState (some 2900)
      = some (fmt4 (max ((100 : ℚ) / 2900) (demoMarket.minAmountLimit.getD (1 / 100)))) ∧
    SnipeBot.calculate_buy_amount demoState (some 0) = none :=
  calculate_buy_amount_formula demoState 100 2900 demoMarket rfl (by decide) rfl

/-- C8 counterexample: a `KeyboardInterrupt` raised during `fetch_ticker` is
not an `Exception` subclass, so the `except Exception` handler of
`get_current_price` does not catch it and it propagates to the caller —
refuting the claim that none of the four functions ever propagates an
exception.  (The loop's own `except KeyboardInterrupt` arm, lines 291-294,
exists precisely to receive it.) -/
theorem get_current_price_interrupt_propagates :
    SnipeBot.get_current_price demoState PyOutcome.interrupt = PyResult.interrupted := rfl

/-- Helper: `check_balance` returns normally whenever `fetch_balance` does
not raise a `KeyboardInterrupt`. -/
theorem check_balance_total (st : BotState) (bal : PyOutcome (String → Option ℚ))
    (h : bal ≠ .interrupt) : ∃ b, SnipeBot.check_balance st bal = .ok b := by
  cases bal with
  | interrupt => exact absurd rfl h
  | exc => exact ⟨false, rfl⟩
  | ok free =>
    cases hqc : quoteCurrencyOf st with
    | none => exact ⟨false, by simp [SnipeBot.check_balance, hqc]⟩
    | some qc =>
      cases hfq : free qc with
      | none => exact ⟨false, by simp [SnipeBot.check_balance, hqc, hfq]⟩
      | some available =>
        cases hq : st.quote_amount with
        | none => exact ⟨false, by simp [SnipeBot.check_balance, hqc, hfq, hq]⟩
        | some q =>
          exact ⟨decide (available ≥ q), by simp [SnipeBot.check_balance, hqc, hfq, hq]⟩

/-- Helper: `place_order` returns normally (an order or `None`) whenever no
exchange primitive raises a `KeyboardInterrupt`. -/
theorem place_order_total (st : BotState) (o : OrderOracle)
    (h1 : o.fetchBalance ≠ .interrupt) (h2 : o.fetchTicker ≠ .interrupt)
    (h3 : o.createMarketOrder ≠ .interrupt) (h4 : o.createLimitOrder ≠ .interrupt) :
    ∃ v, (SnipeBot.place_order st o).1 = .ok v := by
  obtain ⟨b, hb⟩ := check_balance_total st o.fetchBalance h1
  cases b with
  | false => exact ⟨none, by simp [SnipeBot.place_order, hb]⟩
  | true =>
    by_cases hmk : (st.order_type == "market") = true
    · cases htick : o.fetchTicker with
      | interrupt => exact absurd htick h2
      | exc =>
        exact ⟨none, by simp [SnipeBot.place_order, hb, hmk, htick, SnipeBot.get_current_price]⟩
      | ok last =>
        cases last with
        | none =>
          exact ⟨none, by simp [SnipeBot.place_order, hb, hmk, htick, SnipeBot.get_current_price]⟩
        | some current_price =>
          cases hcalc : SnipeBot.calculate_buy_amount st (some current_price) with
          | none =>
            exact ⟨none, by
              simp [SnipeBot.place_order, hb, hmk, htick, SnipeBot.get_current_price, hcalc]⟩
          | some amount =>
            cases hlm : lookupMarket st with
            | none =>
              exact ⟨none, by
                simp [SnipeBot.place_order, hb, hmk, htick, SnipeBot.get_current_price, hcalc, hlm]⟩
            | some market =>
              by_cases hlt : amount < market.minAmountLimit.getD ((10000 : ℚ))⁻¹
              · exact ⟨none, by
                  simp [SnipeBot.place_order, hb, hmk, htick, SnipeBot.get_current_price, hcalc,
                    hlm, hlt]⟩
              · cases hcm : o.createMarketOrder with
                | interrupt => exact absurd hcm h3
                | exc =>
                  exact ⟨none, by
                    simp [SnipeBot.place_order, hb, hmk, htick, SnipeBot.get_current_price, hcalc,
                      hlm, hlt, hcm]⟩
                | ok ord =>
                  exact ⟨some ord, by
                    simp [SnipeBot.place_order, hb, hmk, htick, SnipeBot.get_current_price, hcalc,
                      hlm, hlt, hcm]⟩
    · cases hcalc : SnipeBot.calculate_buy_amount st st.limit_price with
      | none => exact ⟨none, by simp [SnipeBot.place_order, hb, hmk, hcalc]⟩
      | some amount =>
        cases hlm : lookupMarket st with
        | none => exact ⟨none, by simp [SnipeBot.place_order, hb, hmk, hcalc, hlm]⟩
        | some market =>
          by_cases hlt : amount < market.minAmountLimit.getD ((10000 : ℚ))⁻¹
          · exact ⟨none, by simp [SnipeBot.place_order, hb, hmk, hcalc, hlm, hlt]⟩
          · cases hcl : o.createLimitOrder with
            | interrupt => exact absurd hcl h4
            | exc => exact ⟨none, by simp [SnipeBot.place_order, hb, hmk, hcalc, hlm, hlt, hcl]⟩
            | ok ord =>
              exact ⟨some ord, by simp [SnipeBot.place_order, hb, hmk, hcalc, hlm, hlt, hcl]⟩

/-- C8 (amended): every `Exception` raised inside `get_current_price`,
`check_balance`, `calculate_buy_amount` or `place_order` is caught within
that function, which then returns `None`, `False`, `None`, `None`
respectively; no `Exception` propagates to the caller.  Only a
`KeyboardInterrupt` — which `except Exception` does not catch — can
propagate. -/
theorem exceptions_caught_locally (st : BotState) (o : OrderOracle)
    (h1 : o.fetchBalance ≠ .interrupt) (h2 : o.fetchTicker ≠ .interrupt)
    (h3 : o.createMarketOrder ≠ .interrupt) (h4 : o.createLimitOrder ≠ .interrupt) :
    SnipeBot.get_current_price st PyOutcome.exc = .ok none ∧
    SnipeBot.check_balance st PyOutcome.exc = .ok false ∧
    (st.quote_amount = none → ∀ pr, SnipeBot.calculate_buy_amount st pr = none) ∧
    SnipeBot.calculate_buy_amount st (some 0) = none ∧
    (o.fetchBalance = .exc → SnipeBot.place_order st o = (.ok none, [])) ∧
    ∃ v, (SnipeBot.place_order st o).1 = .ok v := by
  refine ⟨rfl, rfl, ?_, ?_, ?_, place_order_total st o h1 h2 h3 h4⟩
  · intro hq pr
    simp [SnipeBot.calculate_buy_amount, hq]
  · cases hq : st.quote_amount with
    | none => simp [SnipeBot.calculate_buy_amount, hq]
    | some q => simp [SnipeBot.calculate_buy_amount, hq]
  · intro hbal
    have hb : SnipeBot.check_balance st o.fetchBalance = .ok false := by
      rw [hbal]; rfl
    simp [SnipeBot.place_order, hb]

/-- Witness for the amended C8 at the sample state and responses. -/
theorem exceptions_caught_locally_witness :
    SnipeBot.get_current_price demoState PyOutcome.exc = .ok none ∧
    ∃ v, (SnipeBot.place_order demoState demoOracle).1 = .ok v := by
  have h := exceptions_caught_locally demoState demoOracle
    (fun hc => nomatch hc) (fun hc => nomatch hc) (fun hc => nomatch hc) (fun hc => nomatch hc)
  exact ⟨h.1, h.2.2.2.2.2⟩

/-- C2: in a loop iteration where the price fetch succeeds (and `max_price`
is set, as validation guarantees), `place_order` is called iff the fetched
price is at most `max_price`; when the price exceeds `max_price`, no
order-creation call is made and the loop continues. -/
theorem loop_places_iff_threshold (st : BotState) (retry : Nat)
    (tick : PyOutcome (Option ℚ)) (ord : OrderOracle) (p m : ℚ)
    (hfetch : SnipeBot.get_current_price st tick = .ok (some p))
    (hmax : st.max_price = some m) :
    ((loopIter st retry (.step tick ord)).attempted = true ↔ p ≤ m) ∧
    (¬p ≤ m → loopIter st retry (.step tick ord) = ⟨none, 0, false, []⟩) := by
  by_cases hpm : p ≤ m
  · have hatt : (loopIter st retry (.step tick ord)).attempted = true := by
      rcases hpo : SnipeBot.place_order st ord with ⟨r, calls⟩
      cases r with
      | interrupted => simp [loopIter, hfetch, hmax, hpm, hpo]
      | ok v =>
        cases v with
        | none => simp [loopIter, hfetch, hmax, hpm, hpo]
        | some o2 => simp [loopIter, hfetch, hmax, hpm, hpo]
    exact ⟨⟨fun _ => hpm, fun _ => hatt⟩, fun hc => absurd hpm hc⟩
  · have hred : loopIter st retry (.step tick ord) = ⟨none, 0, false, []⟩ := by
      simp [loopIter, hfetch, hmax, hpm]
    refine ⟨?_, fun _ => hred⟩
    rw [hred]
    simp [hpm]

/-- Witness for C2: price 2900 is within the 3000 ceiling, so `place_order`
is attempted. -/
theorem loop_places_iff_threshold_witness :
    (loopIter demoState 0 (.step (.ok (some 2900)) demoOracle)).attempted = true :=
  (loop_places_iff_threshold demoState 0 (.ok (some 2900)) demoOracle 2900 3000 rfl rfl).1.mpr
    (by decide)

/-- C3: a failed price fetch increments `retry_count` and aborts the loop
exactly when the count reaches `max_retries = 3`, placing no order; a
successful fetch on a continuing iteration resets the count to `0`; three
consecutive failures from a fresh count abort the loop with `fatalFetch`. -/
theorem loop_retry_logic (st : BotState) (retry : Nat) (ord : OrderOracle) :
    (∀ tick, SnipeBot.get_current_price st tick = .ok none →
      loopIter st retry (.step tick ord) =
        (if 3 ≤ retry + 1 then ⟨some .fatal, retry + 1, false, []⟩
         else ⟨none, retry + 1, false, []⟩)) ∧
    (∀ tick p m, SnipeBot.get_current_price st tick = .ok (some p) →
      st.max_price = some m →
      (loopIter st retry (.step tick ord)).exit = none →
      (loopIter st retry (.step tick ord)).retry = 0) ∧
    (∀ tick, SnipeBot.get_current_price st tick = .ok none →
      runLoop st 0 [.step tick ord, .step tick ord, .step tick ord] = .fatalFetch) := by
  refine ⟨fun tick h => ?_, fun tick p m hfetch hmax hexit => ?_, fun tick h => ?_⟩
  · simp [loopIter, h]
  · by_cases hpm : p ≤ m
    · rcases hpo : SnipeBot.place_order st ord with ⟨r, calls⟩
      cases r with
      | interrupted => simp [loopIter, hfetch, hmax, hpm, hpo] at hexit
      | ok v =>
        cases v with
        | none => simp [loopIter, hfetch, hmax, hpm, hpo]
        | some o2 => simp [loopIter, hfetch, hmax, hpm, hpo] at hexit
    · simp [loopIter, hfetch, hmax, hpm]
  · simp [runLoop, loopIter, h]

/-- Witness for C3: three consecutive `fetch_ticker` exceptions abort the
loop fatally. -/
theorem loop_retry_logic_witness :
    runLoop demoState 0
      [.step PyOutcome.exc demoOracle, .step PyOutcome.exc demoOracle,
       .step PyOutcome.exc demoOracle] = .fatalFetch :=
  (loop_retry_logic demoState 0 demoOracle).2.2 PyOutcome.exc rfl

/-- C4: when `place_order` returns `None` in an iteration, the iteration
does not exit the loop (the count resets and polling continues), and a run
made solely of such iterations never terminates the loop. -/
theorem loop_continues_on_order_failure (st : BotState) (retry : Nat)
    (tick : PyOutcome (Option ℚ)) (ord : OrderOracle) (p m : ℚ)
    (hfetch : SnipeBot.get_current_price st tick = .ok (some p))
    (hmax : st.max_price = some m) (hle : p ≤ m)
    (horder : (SnipeBot.place_order st ord).1 = .ok none) :
    loopIter st retry (.step tick ord) = ⟨none, 0, true, (SnipeBot.place_order st ord).2⟩ ∧
    (∀ evs : List LoopEvent, evs ≠ [] → (∀ ev ∈ evs, ev = .step tick ord) →
      runLoop st retry evs = .running 0) := by
  rcases hpo : SnipeBot.place_order st ord with ⟨r, calls⟩
  rw [hpo] at horder
  simp only at horder
  subst horder
  have key : ∀ r2 : Nat, loopIter st r2 (.step tick ord) = ⟨none, 0, true, calls⟩ := by
    intro r2
    simp [loopIter, hfetch, hmax, hle, hpo]
  constructor
  · simp [key retry, hpo]
  · suffices aux : ∀ (evs : List LoopEvent) (r2 : Nat), evs ≠ [] →
        (∀ ev ∈ evs, ev = .step tick ord) → runLoop st r2 evs = .running 0 from
      fun evs hne hall => aux evs retry hne hall
    intro evs
    induction evs with
    | nil => intro r2 hne _; exact absurd rfl hne
    | cons ev evs2 ih =>
      intro r2 _ hall
      have hev := hall ev (List.mem_cons_self _ _)
      subst hev
      simp only [runLoop, key r2]
      cases evs2 with
      | nil => rfl
      | cons ev2 evs3 =>
        exact ih 0 (by simp) (fun e he => hall e (List.mem_cons_of_mem _ he))

/-- Witness for C4: with an insufficient balance, `place_order` returns
`None` and the iteration continues. -/
theorem loop_continues_on_order_failure_witness :
    loopIter demoState 0 (.step (.ok (some 2900)) poorOracle)
      = ⟨none, 0, true, (SnipeBot.place_order demoState poorOracle).2⟩ :=
  (loop_continues_on_order_failure demoState 0 (.ok (some 2900)) poorOracle 2900 3000
    rfl rfl (by decide) rfl).1

/-- C5: the polling loop exits only because an order was placed
(`place_order` returned an order), because the third consecutive fetch
failure occurred, or because of a `KeyboardInterrupt`; any other exception
raised in the loop body is caught and the iteration continues. -/
theorem loop_exit_conditions (st : BotState) (retry : Nat) (ev : LoopEvent) :
    (∀ o, (loopIter st retry ev).exit = some (.placed o) →
      ∃ tick ord, ev = .step tick ord ∧ (SnipeBot.place_order st ord).1 = .ok (some o)) ∧
    ((loopIter st retry ev).exit = some .fatal →
      ∃ tick ord, ev = .step tick ord ∧ SnipeBot.get_current_price st tick = .ok none ∧
        3 ≤ retry + 1) ∧
    ((loopIter st retry ev).exit = some .interrupted →
      ev = .bodyInterrupt ∨ ∃ tick ord, ev = .step tick ord ∧
        (SnipeBot.get_current_price st tick = .interrupted ∨
         (SnipeBot.place_order st ord).1 = .interrupted)) ∧
    (ev = .bodyExc → loopIter st retry ev = ⟨none, retry, false, []⟩) := by
  cases ev with
  | bodyExc =>
    refine ⟨fun o h => ?_, fun h => ?_, fun h => ?_, fun _ => rfl⟩ <;> simp [loopIter] at h
  | bodyInterrupt =>
    refine ⟨fun o h => ?_, fun h => ?_, fun h => Or.inl rfl, fun h => ?_⟩ <;>
      simp [loopIter] at h
  | step tick ord =>
    cases hg : SnipeBot.get_current_price st tick with
    | interrupted =>
      have hred : loopIter st retry (.step tick ord) = ⟨some .interrupted, retry, false, []⟩ := by
        simp [loopIter, hg]
      refine ⟨fun o h => ?_, fun h => ?_, fun h => ?_, fun h => ?_⟩
      · rw [hred] at h; simp at h
      · rw [hred] at h; simp at h
      · exact Or.inr ⟨tick, ord, rfl, Or.inl hg⟩
      · cases h
    | ok last =>
      cases last with
      | none =>
        by_cases h3 : 3 ≤ retry + 1
        · have hred : loopIter st retry (.step tick ord)
              = ⟨some .fatal, retry + 1, false, []⟩ := by
            simp [loopIter, hg, h3]
          refine ⟨fun o h => ?_, fun h => ⟨tick, ord, rfl, hg, h3⟩, fun h => ?_, fun h => ?_⟩
          · rw [hred] at h; simp at h
          · rw [hred] at h; simp at h
          · cases h
        · have hred : loopIter st retry (.step tick ord) = ⟨none, retry + 1, false, []⟩ := by
            simp [loopIter, hg, h3]
          refine ⟨fun o h => ?_, fun h => ?_, fun h => ?_, fun h => ?_⟩
          · rw [hred] at h; simp at h
          · rw [hred] at h; simp at h
          · rw [hred] at h; simp at h
          · cases h
      | some price =>
        cases hm : st.max_price with
        | none =>
          have hred : loopIter st retry (.step tick ord) = ⟨none, retry, false, []⟩ := by
            simp [loopIter, hg, hm]
          refine ⟨fun o h => ?_, fun h => ?_, fun h => ?_, fun h => ?_⟩
          · rw [hred] at h; simp at h
          · rw [hred] at h; simp at h
          · rw [hred] at h; simp at h
          · cases h
        | some m =>
          by_cases hpm : price ≤ m
          · rcases hpo : SnipeBot.place_order st ord with ⟨r, calls⟩
            cases r with
            | interrupted =>
              have hred : loopIter st retry (.step tick ord)
                  = ⟨some .interrupted, retry, true, calls⟩ := by
                simp [loopIter, hg, hm, hpm, hpo]
              refine ⟨fun o h => ?_, fun h => ?_, fun h => ?_, fun h => ?_⟩
              · rw [hred] at h; simp at h
              · rw [hred] at h; simp at h
              · exact Or.inr ⟨tick, ord, rfl, Or.inr (by rw [hpo])⟩
              · cases h
            | ok v =>
              cases v with
              | none =>
                have hred : loopIter st retry (.step tick ord) = ⟨none, 0, true, calls⟩ := by
                  simp [loopIter, hg, hm, hpm, hpo]
                refine ⟨fun o h => ?_, fun h => ?_, fun h => ?_, fun h => ?_⟩
                · rw [hred] at h; simp at h
                · rw [hred] at h; simp at h
                · rw [hred] at h; simp at h
                · cases h
              | some o2 =>
                have hred : loopIter st retry (.step tick ord)
                    = ⟨some (.placed o2), retry, true, calls⟩ := by
                  simp [loopIter, hg, hm, hpm, hpo]
                refine ⟨fun o h => ?_, fun h => ?_, fun h => ?_, fun h => ?_⟩
                · rw [hred] at h
                  simp only [Option.some.injEq] at h
                  cases h
                  exact ⟨tick, ord, rfl, by rw [hpo]⟩
                · rw [hred] at h; simp at h
                · rw [hred] at h; simp at h
                · cases h
          · have hred : loopIter st retry (.step tick ord) = ⟨none, 0, false, []⟩ := by
              simp [loopIter, hg, hm, hpm]
            refine ⟨fun o h => ?_, fun h => ?_, fun h => ?_, fun h => ?_⟩
            · rw [hred] at h; simp at h
            · rw [hred] at h; simp at h
            · rw [hred] at h; simp at h
            · cases h

/-- Witness for C5: an `Exception` in the loop body is caught and the loop
continues with the same retry count. -/
theorem loop_exit_conditions_witness :
    loopIter demoState 0 LoopEvent.bodyExc = ⟨none, 0, false, []⟩ :=
  (loop_exit_conditions demoState 0 LoopEvent.bodyExc).2.2.2 rfl

/-- Helper: the market lookup ignores `max_price`, so rewriting `max_price`
during validation does not affect it. -/
theorem lookupMarket_set_max (st : BotState) (x : Option ℚ) :
    lookupMarket { st with max_price := x } = lookupMarket st := rfl

/-- Helper: validation exits with `symbolNotFound` when the target symbol
is not among the loaded markets. -/
theorem stage2_not_found (st2 : BotState) (h : lookupMarket st2 = none) :
    runValidateStage2 st2 = .symbolNotFound := by
  simp [runValidateStage2, h]

/-- Helper: validation exits with `belowMinCost` when the market carries a
nonzero minimum cost exceeding the budget. -/
theorem stage2_below_cost (st2 : BotState) (mkt : Market) (q : ℚ)
    (h : lookupMarket st2 = some mkt) (hq : st2.quote_amount = some q)
    (hc : mkt.minCostLimit.getD 0 ≠ 0) (hlt : q < mkt.minCostLimit.getD 0) :
    runValidateStage2 st2 = .belowMinCost := by
  simp only [runValidateStage2, h]
  rw [if_pos ⟨hc, by rw [hq]; simpa using hlt⟩]

/-- Helper: validation proceeds when the symbol is found and the
minimum-cost condition does not fire. -/
theorem stage2_proceed (st2 : BotState) (mkt : Market)
    (h : lookupMarket st2 = some mkt)
    (hcost : ¬(mkt.minCostLimit.getD 0 ≠ 0 ∧
      st2.quote_amount.getD 0 < mkt.minCostLimit.getD 0)) :
    runValidateStage2 st2 = .proceed st2 := by
  simp only [runValidateStage2, h]
  rw [if_neg hcost]

/-- C7: `run` validates before polling — it returns with `missingParams`
when the trading pair or the budget is unset; returns when the order type
is `limit` and no limit price is set; returns when the order type is
`market` and no price ceiling is set; with a `limit` order and no ceiling
it sets `max_price` to `1.01` times the limit price and proceeds; it
returns when the target symbol is not among the loaded markets, and when
the budget is below the market's (nonzero) minimum cost. -/
theorem run_validation (st : BotState) :
    (st.target_symbol = none ∨ st.quote_amount = none →
      runValidate st = .missingParams) ∧
    (st.order_type = "limit" → st.limit_price = none →
      exitsEarly (runValidate st) = true) ∧
    (st.order_type = "market" → st.max_price = none →
      exitsEarly (runValidate st) = true) ∧
    (∀ lp mkt, st.order_type = "limit" → st.limit_price = some lp → lp ≠ 0 →
      st.max_price = none → lookupMarket st = some mkt →
      ¬(mkt.minCostLimit.getD 0 ≠ 0 ∧
        st.quote_amount.getD 0 < mkt.minCostLimit.getD 0) →
      sTruthy st.target_symbol = true → qTruthy st.quote_amount = true →
      runValidate st = .proceed { st with max_price := some (lp * (101 / 100)) }) ∧
    (lookupMarket st = none → exitsEarly (runValidate st) = true) ∧
    (∀ mkt q, lookupMarket st = some mkt → mkt.minCostLimit.getD 0 ≠ 0 →
      st.quote_amount = some q → q < mkt.minCostLimit.getD 0 →
      exitsEarly (runValidate st) = true) := by
  refine ⟨?_, ?_, ?_, ?_, ?_, ?_⟩
  · intro h
    rcases h with h | h <;> simp [runValidate, h, sTruthy, qTruthy]
  · intro h1 h2
    simp only [runValidate]
    split
    · rfl
    · split
      · rfl
      · next hc2 => exact absurd ⟨h1, by simp [h2, qTruthy]⟩ hc2
  · intro h1 h2
    simp only [runValidate]
    split
    · rfl
    · split
      · rfl
      · split
        · split
          · next hlim => rw [h1] at hlim; simp at hlim
          · rfl
        · next hc3 => exact absurd (by simp [h2, qTruthy]) hc3
  · intro lp mkt h1 hlp hlpne hmax hfound hcost hs hqt
    have hq1 : qTruthy st.limit_price = true := by
      rw [hlp]; simp [qTruthy, hlpne]
    simp only [runValidate]
    rw [if_neg (fun hcon => hcon ⟨hs, hqt⟩)]
    rw [if_neg (fun hcon => hcon.2 hq1)]
    rw [if_pos (by simp [hmax, qTruthy])]
    rw [if_pos h1]
    have hmap : st.limit_price.map (fun pr => pr * (101 / 100))
        = some (lp * (101 / 100)) := by rw [hlp]; rfl
    rw [hmap]
    exact stage2_proceed _ mkt (by rw [lookupMarket_set_max]; exact hfound) hcost
  · intro h
    simp only [runValidate]
    split
    · rfl
    · split
      · rfl
      · split
        · split
          · rw [stage2_not_found
              { st with max_price := st.limit_price.map (fun pr => pr * (101 / 100)) } h]
            rfl
          · rfl
        · rw [stage2_not_found st h]; rfl
  · intro mkt q hfound hc hq hlt
    simp only [runValidate]
    split
    · rfl
    · split
      · rfl
      · split
        · split
          · rw [stage2_below_cost
              { st with max_price := st.limit_price.map (fun pr => pr * (101 / 100)) }
              mkt q hfound hq hc hlt]
            rfl
          · rfl
        · rw [stage2_below_cost st mkt q hfound hq hc hlt]; rfl

/-- Sample limit-order state with no price ceiling set (the commented-out
limit configuration of `main.py`, without `max_price`). -/
def demoLimitState : BotState :=
  { target_symbol := some "ETH/USDT"
    quote_amount := some 100
    max_price := none
    order_type := "limit"
    limit_price := some 2100
    markets := [("ETH/USDT", demoMarket)] }

/-- Sample market data with a minimum cost of 2 USDT. -/
def demoCostMarket : Market := { minAmountLimit := some (1 / 10000), minCostLimit := some 2 }

/-- Sample state whose 1-USDT budget is below the market's minimum cost. -/
def demoCostState : BotState :=
  { demoState with quote_amount := some 1, markets := [("ETH/USDT", demoCostMarket)] }

/-- Witness for C7: each validation exit and the `max_price` rewrite, at
concrete states. -/
theorem run_validation_witness :
    runValidate { demoState with target_symbol := none } = .missingParams ∧
    exitsEarly (runValidate { demoState with order_type := "limit", limit_price := none })
      = true ∧
    exitsEarly (runValidate { demoState with max_price := none }) = true ∧
    runValidate demoLimitState
      = .proceed { demoLimitState with max_price := some ((2100 : ℚ) * (101 / 100)) } ∧
    exitsEarly (runValidate { demoState with target_symbol := some "XX/USDT" }) = true ∧
    exitsEarly (runValidate demoCostState) = true := by
  refine ⟨?_, ?_, ?_, ?_, ?_, ?_⟩
  · exact (run_validation _).1 (Or.inl rfl)
  · exact (run_validation _).2.1 rfl rfl
  · exact (run_validation _).2.2.1 rfl rfl
  · exact (run_validation demoLimitState).2.2.2.1 2100 demoMarket rfl rfl (by decide) rfl rfl
      (by decide) rfl (by decide)
  · exact (run_validation _).2.2.2.2.1 rfl
  · exact (run_validation demoCostState).2.2.2.2.2 demoCostMarket 1 rfl (by decide) rfl
      (by decide)

end OkxSnipe
